import Mathlib

/-!
Verification of `movies.py` against its specification.

The program scans directories for videos, deduplicates them by title
(keeping the largest file), caches scan results and per-title metadata
lookups in on-disk key-value stores, and renders a metadata report.

We embed the program shallowly:
* filesystem `stat` sizes become a function `Sizes : String → Nat`
  (size read at comparison time, keyed by file name);
* the external scanner, remote search and detail fetch become function
  parameters;
* the two shelve stores become functions `String → Option _`, threaded
  explicitly through the operations that read or write them;
* Python truthiness is modelled faithfully where the code relies on it
  (`if videos:`, `if meta:`, `x or y`): a set is truthy iff non-empty,
  a string iff non-empty, an integer iff non-zero, `None` is falsy.
-/

namespace Movies

/-- A scanned video descriptor: `title`, optional `year`, and the file
path `name` (attribute names follow the scanner's video objects used by
`movies.py`). -/
structure Video where
  title : String
  year : Option Nat
  name : String
deriving DecidableEq

/-- The filesystem's view of file sizes: `Path(name).stat().st_size`,
read on demand. -/
abbrev Sizes := String → Nat

/-- `video_size(video)` from `movies.py`: `Path(video.name).stat().st_size`. -/
def video_size (sz : Sizes) (v : Video) : Nat := sz v.name

/-- Python's `max(video, other, key=video_size)`: scans the arguments
left to right and replaces the current maximum only on strict increase,
so `other` wins only when its size is strictly larger than `video`'s. -/
def pyMax (sz : Sizes) (video other : Video) : Video :=
  if video_size sz video < video_size sz other then other else video

/-- One iteration of the `unique_videos` loop over the title-keyed dict
(modelled as a list of retained videos with pairwise distinct titles):
`unique.get(video.title)` is the lookup; on a hit the entry for that
title is replaced by `max(video, other, key=video_size)`, on a miss
`video` is inserted. -/
def dedupStep (sz : Sizes) (acc : List Video) (v : Video) : List Video :=
  if (acc.find? fun w => w.title == v.title).isSome then
    acc.map fun w => if w.title == v.title then pyMax sz v w else w
  else
    acc ++ [v]

/-- The dict built by `unique_videos`' loop, as its list of values. -/
def uniqueList (sz : Sizes) (l : List Video) : List Video :=
  l.foldl (dedupStep sz) []

/-- `unique_videos(videos)` from `movies.py`: `set(unique.values())`. -/
def unique_videos (sz : Sizes) (l : List Video) : Finset Video :=
  (uniqueList sz l).toFinset

/-- Lexicographic comparison of character sequences by code point,
as Python compares strings. -/
def charsLe : List Char → List Char → Bool
  | [], _ => true
  | _ :: _, [] => false
  | c :: cs, d :: ds =>
    if c < d then true else if d < c then false else charsLe cs ds

/-- Python's `<=` on strings: lexicographic by code point. -/
def strLe (a b : String) : Prop := charsLe a.data b.data = true

instance : DecidableRel strLe := fun a b =>
  inferInstanceAs (Decidable (charsLe a.data b.data = true))

/-- Python's `sorted` on strings: lexicographic ascending order. -/
def sortStrings (l : List String) : List String :=
  l.insertionSort strLe

/-- The scan cache key of `get_videos`:
`' '.join(sorted(map(str, dirs)))`. Directories are modelled by their
string form. -/
def videosKey (dirs : List String) : String :=
  String.intercalate " " (sortStrings dirs)

/-- Invariant of the `unique_videos` loop after consuming the prefix
`seen` of the input: the retained list `acc` has pairwise distinct
titles, each retained video comes from `seen` and dominates (by file
size) every same-titled video of `seen`, and every title of `seen` is
represented in `acc`. -/
def DedupInv (sz : Sizes) (seen acc : List Video) : Prop :=
  (acc.map Video.title).Nodup ∧
  (∀ v ∈ acc, v ∈ seen ∧
    ∀ w ∈ seen, w.title = v.title → video_size sz w ≤ video_size sz v) ∧
  (∀ w ∈ seen, ∃ v ∈ acc, v.title = w.title)

/-- A list of videos whose members are determined by their title. -/
def TitleInj (l : List Video) : Prop :=
  ∀ v ∈ l, ∀ w ∈ l, v.title = w.title → v = w

/-- The deduplicated video set of a run. -/
abbrev VideoSet := Finset Video

/-- The persistent scan cache (`.videos.cache.shelve`), as a string-keyed
partial map. -/
abbrev ScanStore := String → Option VideoSet

/-- `db[k] = v` on a shelve store. -/
def updateStore {α : Type} (store : String → Option α) (k : String) (v : α) :
    String → Option α :=
  fun q => if q = k then some v else store q

/-- Outcome of one `get_videos` call: the returned set, the scan store
after the call, and whether the scanner (`scan_videos` via `thread_map`)
was invoked. -/
structure ScanResult where
  result : VideoSet
  store : ScanStore
  scannerInvoked : Bool

/-- `get_videos(dirs)` from `movies.py`. The external scanner is a
parameter; `chain.from_iterable(thread_map(scan_videos, map(str, dirs)))`
is the concatenation, in directory order, of the per-directory scans.
`db.get(videos_key)` is the store lookup, and the hit test `if videos:`
is Python truthiness: it succeeds only on a non-empty stored set. -/
def get_videos (sz : Sizes) (scanner : String → List Video)
    (store : ScanStore) (dirs : List String) : ScanResult :=
  match store (videosKey dirs) with
  | some vs =>
    if vs = ∅ then
      ⟨unique_videos sz ((dirs.map scanner).flatten),
        updateStore store (videosKey dirs)
          (unique_videos sz ((dirs.map scanner).flatten)), true⟩
    else
      ⟨vs, store, false⟩
  | none =>
    ⟨unique_videos sz ((dirs.map scanner).flatten),
      updateStore store (videosKey dirs)
        (unique_videos sz ((dirs.map scanner).flatten)), true⟩

/-- A metadata record returned by the provider, with the fields
`print_metadata` projects. `movieID` is an attribute of the record;
the remaining fields live in the record's data dictionary and are
optional. Numeric ratings are modelled as rationals. -/
structure Meta where
  movieID : String
  title : Option String
  year : Option Nat
  countries : Option (List String)
  directors : Option (List String)
  rating : Option ℚ
  plotOutline : Option String
  plot : Option String
  coverUrl : Option String
deriving DecidableEq

/-- Python truthiness of a metadata record: the provider's container
objects are truthy iff their data dictionary is non-empty (`movieID` is
an attribute of the container, not part of its data). -/
def Meta.toBool (m : Meta) : Bool :=
  m.title.isSome || m.year.isSome || m.countries.isSome ||
    m.directors.isSome || m.rating.isSome || m.plotOutline.isSome ||
    m.plot.isSome || m.coverUrl.isSome

/-- The persistent metadata cache (`.meta.cache.shelve`). -/
abbrev MetaStore := String → Option Meta

/-- `get_cached_meta(title)`: `db.get(str(title))` under the lock. -/
def get_cached_meta (store : MetaStore) (title : String) : Option Meta :=
  store title

/-- `save_cached_meta(title, meta)`: `db[title] = meta` under the lock. -/
def save_cached_meta (store : MetaStore) (title : String) (meta : Meta) :
    MetaStore :=
  updateStore store title meta

/-- One result entry of the remote `db.search_movie(title)` call; only
its `movieID` is consumed. -/
structure SearchItem where
  movieID : String
deriving DecidableEq

/-- Outcome of one `search_movie` call: the returned record (or `None`),
the metadata store after the call, and whether the remote search
(`db.search_movie`) and the detail fetch (`db.get_movie`) were invoked. -/
structure LookupResult where
  result : Option Meta
  store : MetaStore
  searchInvoked : Bool
  fetchInvoked : Bool

/-- The un-cached tail of `search_movie`: run the remote search; an
exception (`except Exception: return None`) or an empty result list
(`if not search_result:`) yields `None`; otherwise fetch the details of
the first result; an exception again yields `None`; on success the
record is cached under the title and returned. -/
def search_movie_fetch (searchFn : String → Except Unit (List SearchItem))
    (getMovieFn : String → Except Unit Meta) (store : MetaStore)
    (title : String) : LookupResult :=
  match searchFn title with
  | .error _ => ⟨none, store, true, false⟩
  | .ok [] => ⟨none, store, true, false⟩
  | .ok (item :: _) =>
    match getMovieFn item.movieID with
    | .error _ => ⟨none, store, true, true⟩
    | .ok movie => ⟨some movie, save_cached_meta store title movie, true, true⟩

/-- `search_movie(db, title)` from `movies.py`: `meta =
get_cached_meta(title); if meta: return meta` — a truthy cached record
is returned with no remote calls; otherwise the fetch path runs. -/
def search_movie (searchFn : String → Except Unit (List SearchItem))
    (getMovieFn : String → Except Unit Meta) (store : MetaStore)
    (title : String) : LookupResult :=
  match get_cached_meta store title with
  | some m =>
    if m.toBool then ⟨some m, store, false, false⟩
    else search_movie_fetch searchFn getMovieFn store title
  | none => search_movie_fetch searchFn getMovieFn store title

/-- Python string slicing `s[:n]`: the first `n` characters. -/
def strTake (s : String) (n : Nat) : String :=
  String.mk (s.data.take n)

/-- Python `a or b` for an optional string `a`: `a` when present and
non-empty (truthy), else `b`. -/
def pyOrString (a : Option String) (b : String) : String :=
  match a with
  | some s => if s = "" then b else s
  | none => b

/-- Python truthiness filter on an optional integer: `None` and `0` are
falsy. -/
def truthyNat : Option Nat → Option Nat
  | some n => if n = 0 then none else some n
  | none => none

/-- The `year` cell of a report entry:
`meta.get('year') or video.year or ''` (`none` renders as the empty
cell). -/
def entryYear (video : Video) (m : Meta) : Option Nat :=
  match truthyNat m.year with
  | some y => some y
  | none => truthyNat video.year

/-- The `summary` cell of a report entry:
`meta.get('plot outline') or meta.get('plot', '')[:300]`. -/
def pySummary (m : Meta) : String :=
  pyOrString m.plotOutline (strTake (m.plot.getD "") 300)

/-- One row dictionary built by `print_metadata` (fields in the order of
the code: title link, year, url, path link, image link, rating,
directors, country, summary). A `none` year or rating renders as an
empty cell. -/
structure Entry where
  title : String
  year : Option Nat
  url : String
  path : String
  imgUrl : String
  rating : Option ℚ
  directors : String
  country : String
  summary : String
deriving DecidableEq

/-- The entry `print_metadata` appends for one `(video, meta)` pair.
`meta['title']` raises `KeyError` when the record has no title, so the
projection is partial in exactly that case; every other field is read
with `.get` and defaulted. -/
def mkEntry (video : Video) (m : Meta) : Option Entry :=
  match m.title with
  | none => none
  | some t =>
    let url := "https://www.imdb.com/title/tt" ++ m.movieID
    let cover := match m.coverUrl with
      | some u => u
      | none => "None"
    some ⟨"[" ++ t ++ "](" ++ url ++ ")",
      entryYear video m,
      url,
      "[path](" ++ video.name ++ ")",
      "![](" ++ cover ++ ")",
      m.rating,
      String.intercalate " " (m.directors.getD []),
      String.intercalate " " (m.countries.getD []),
      pySummary m⟩

/-- The sort key of the metadata report:
`float(e[1].get('rating') or 0)` — a missing rating, and a zero rating
(falsy), both yield 0. -/
def ratingKey (e : Video × Meta) : ℚ :=
  match e.2.rating with
  | some q => if q = 0 then 0 else q
  | none => 0

/-- The report order: `a` may precede `b` iff `a`'s key is at least
`b`'s (descending by rating). -/
def metaSortRel (a b : Video × Meta) : Prop :=
  ratingKey b ≤ ratingKey a

instance : DecidableRel metaSortRel := fun a b =>
  inferInstanceAs (Decidable (ratingKey b ≤ ratingKey a))

/-- `sorted(get_imdb_metadata(videos), key=..., reverse=True)`: a stable
descending sort by `ratingKey` (insertion sort is a faithful model of
Python's stable `sorted`). -/
def sortMetadata (entries : List (Video × Meta)) : List (Video × Meta) :=
  entries.insertionSort metaSortRel

end Movies

namespace Movies

theorem charsLe_total (xs ys : List Char) :
    charsLe xs ys = true ∨ charsLe ys xs = true := by
  induction xs generalizing ys with
  | nil => left; rfl
  | cons c cs ih =>
    cases ys with
    | nil => right; rfl
    | cons d ds =>
      rcases lt_trichotomy c d with h | h | h
      · left; simp [charsLe, h]
      · subst h
        rcases ih ds with h' | h'
        · left; simp [charsLe, h', lt_irrefl]
        · right; simp [charsLe, h', lt_irrefl]
      · right; simp [charsLe, h]

theorem charsLe_trans {xs ys zs : List Char}
    (h₁ : charsLe xs ys = true) (h₂ : charsLe ys zs = true) :
    charsLe xs zs = true := by
  induction xs generalizing ys zs with
  | nil => rfl
  | cons c cs ih =>
    cases ys with
    | nil => simp [charsLe] at h₁
    | cons d ds =>
      cases zs with
      | nil => simp [charsLe] at h₂
      | cons e es =>
        simp only [charsLe] at h₁ h₂ ⊢
        by_cases hcd : c < d
        · by_cases hde : d < e
          · simp [lt_trans hcd hde]
          · simp only [hde, if_false, if_true] at h₂
            by_cases hed : e < d
            · simp [hed] at h₂
            · have : d = e := le_antisymm (not_lt.mp hed) (not_lt.mp hde)
              subst this
              simp [hcd]
        · simp only [hcd, if_false] at h₁
          by_cases hdc : d < c
          · simp [hdc] at h₁
          · have : c = d := le_antisymm (not_lt.mp hdc) (not_lt.mp hcd)
            subst this
            rw [if_neg (lt_irrefl c)] at h₁
            by_cases hce : c < e
            · simp [hce]
            · simp only [hce, if_false] at h₂ ⊢
              by_cases hec : e < c
              · simp [hec] at h₂
              · simp only [hec, if_false] at h₂ ⊢
                exact ih h₁ h₂

theorem charsLe_antisymm {xs ys : List Char}
    (h₁ : charsLe xs ys = true) (h₂ : charsLe ys xs = true) : xs = ys := by
  induction xs generalizing ys with
  | nil =>
    cases ys with
    | nil => rfl
    | cons d ds => simp [charsLe] at h₂
  | cons c cs ih =>
    cases ys with
    | nil => simp [charsLe] at h₁
    | cons d ds =>
      simp only [charsLe] at h₁ h₂
      by_cases hcd : c < d
      · simp [hcd, lt_asymm hcd] at h₂
      · simp only [hcd, if_false] at h₁
        by_cases hdc : d < c
        · simp [hdc] at h₁
        · simp only [hdc, if_false] at h₁ h₂
          have : c = d := le_antisymm (not_lt.mp hdc) (not_lt.mp hcd)
          subst this
          rw [ih h₁ (by simpa using h₂)]

theorem sortStrings_perm (l : List String) : List.Perm (sortStrings l) l :=
  List.perm_insertionSort _ l

theorem sortStrings_sorted (l : List String) :
    (sortStrings l).Sorted strLe := by
  haveI : IsTotal String strLe := ⟨fun a b => charsLe_total a.data b.data⟩
  haveI : IsTrans String strLe := ⟨fun _ _ _ h₁ h₂ => charsLe_trans h₁ h₂⟩
  exact List.sorted_insertionSort _ l

/-- C5: the scan cache key is order-independent: permuted directory
lists produce the same key (the sorted, space-joined path strings),
hence address the same cache slot. -/
theorem videosKey_perm_invariant (l₁ l₂ : List String) (h : l₁.Perm l₂) :
    videosKey l₁ = videosKey l₂ := by
  haveI : IsAntisymm String strLe :=
    ⟨fun a b h₁ h₂ => by
      cases a; cases b
      exact congrArg String.mk (charsLe_antisymm h₁ h₂)⟩
  unfold videosKey
  congr 1
  exact List.eq_of_perm_of_sorted
    ((sortStrings_perm l₁).trans (h.trans (sortStrings_perm l₂).symm))
    (sortStrings_sorted l₁) (sortStrings_sorted l₂)

/-- Witness for C5 at a concrete pair of permuted directory lists. -/
theorem videosKey_perm_invariant_witness :
    videosKey ["/b", "/a"] = videosKey ["/a", "/b"] :=
  videosKey_perm_invariant ["/b", "/a"] ["/a", "/b"] (List.Perm.swap "/a" "/b" [])

/-- C10: the key derivation is not injective: the distinct directory
lists `["/a b"]` (one path containing a space) and `["/a", "b"]`
collide on the key `"/a b"`, hence share one cache slot. -/
theorem videosKey_not_injective :
    videosKey ["/a b"] = videosKey ["/a", "b"] ∧
      (["/a b"] : List String) ≠ ["/a", "b"] := by
  constructor
  · decide
  · decide

theorem find?_title_isSome {acc : List Video} {t : String} :
    (acc.find? fun w => w.title == t).isSome = true ↔ ∃ w ∈ acc, w.title = t := by
  rw [List.find?_isSome]
  simp

theorem pyMax_cases (sz : Sizes) (a b : Video) :
    pyMax sz a b = a ∨ pyMax sz a b = b := by
  unfold pyMax; split
  · right; rfl
  · left; rfl

theorem le_pyMax_left (sz : Sizes) (a b : Video) :
    video_size sz a ≤ video_size sz (pyMax sz a b) := by
  unfold pyMax; split
  · exact le_of_lt (by assumption)
  · exact le_refl _

theorem le_pyMax_right (sz : Sizes) (a b : Video) :
    video_size sz b ≤ video_size sz (pyMax sz a b) := by
  unfold pyMax; split
  · exact le_refl _
  · exact not_lt.mp (by assumption)

theorem pyMax_title (sz : Sizes) (v w : Video) (h : w.title = v.title) :
    (pyMax sz v w).title = w.title := by
  unfold pyMax; split
  · rfl
  · exact h.symm

theorem dedupStep_pos (sz : Sizes) (v : Video) {acc : List Video}
    (h : ∃ w ∈ acc, w.title = v.title) :
    dedupStep sz acc v =
      acc.map fun w => if w.title == v.title then pyMax sz v w else w := by
  rw [dedupStep, if_pos (find?_title_isSome.mpr h)]

theorem dedupStep_neg (sz : Sizes) (v : Video) {acc : List Video}
    (h : ¬ ∃ w ∈ acc, w.title = v.title) :
    dedupStep sz acc v = acc ++ [v] := by
  rw [dedupStep, if_neg fun hc => h (find?_title_isSome.mp hc)]

theorem dedupStep_inv (sz : Sizes) (v : Video) {seen acc : List Video}
    (h : DedupInv sz seen acc) : DedupInv sz (seen ++ [v]) (dedupStep sz acc v) := by
  obtain ⟨hnd, hmem, hcov⟩ := h
  by_cases hex : ∃ w ∈ acc, w.title = v.title
  · rw [dedupStep_pos sz v hex]
    set f : Video → Video :=
      (fun w => if w.title == v.title then pyMax sz v w else w) with hf
    have htitle : ∀ w : Video, (f w).title = w.title := by
      intro w
      by_cases hw : w.title = v.title
      · simp only [hf, hw, beq_self_eq_true, if_true]
        exact (pyMax_title sz v w hw).trans hw
      · simp [hf, hw]
    refine ⟨?_, ?_, ?_⟩
    · have heq : (acc.map f).map Video.title = acc.map Video.title := by
        rw [List.map_map]
        exact List.map_congr_left fun a _ => htitle a
      rw [heq]
      exact hnd
    · intro u hu
      rw [List.mem_map] at hu
      obtain ⟨u₀, hu₀, rfl⟩ := hu
      by_cases ht : u₀.title = v.title
      · have hfu : f u₀ = pyMax sz v u₀ := by simp [hf, ht]
        rw [hfu]
        constructor
        · rcases pyMax_cases sz v u₀ with h' | h'
          · rw [h']
            exact List.mem_append.mpr (Or.inr (List.mem_singleton.mpr rfl))
          · rw [h']
            exact List.mem_append.mpr (Or.inl (hmem u₀ hu₀).1)
        · intro w hw hwt
          rcases List.mem_append.mp hw with hw' | hw'
          · exact le_trans
              ((hmem u₀ hu₀).2 w hw'
                (by rw [hwt, pyMax_title sz v u₀ ht]))
              (le_pyMax_right sz v u₀)
          · rw [List.mem_singleton.mp hw']
            exact le_pyMax_left sz v u₀
      · have hfu : f u₀ = u₀ := by simp [hf, ht]
        rw [hfu]
        refine ⟨List.mem_append.mpr (Or.inl (hmem u₀ hu₀).1), ?_⟩
        intro w hw hwt
        rcases List.mem_append.mp hw with hw' | hw'
        · exact (hmem u₀ hu₀).2 w hw' hwt
        · exfalso
          rw [List.mem_singleton.mp hw'] at hwt
          exact ht hwt.symm
    · intro w hw
      rcases List.mem_append.mp hw with hw' | hw'
      · obtain ⟨u, hu, hut⟩ := hcov w hw'
        exact ⟨f u, List.mem_map_of_mem f hu, by rw [htitle u, hut]⟩
      · obtain ⟨u, hu, hut⟩ := hex
        exact ⟨f u, List.mem_map_of_mem f hu,
          by rw [htitle u, hut, List.mem_singleton.mp hw']⟩
  · rw [dedupStep_neg sz v hex]
    refine ⟨?_, ?_, ?_⟩
    · rw [List.map_append, List.nodup_append]
      refine ⟨hnd, List.nodup_singleton _, ?_⟩
      intro a ha hb
      rw [List.mem_map] at ha
      obtain ⟨u, hu, rfl⟩ := ha
      have hub : u.title = v.title := by simpa using hb
      exact hex ⟨u, hu, hub⟩
    · intro u hu
      rcases List.mem_append.mp hu with hu' | hu'
      · refine ⟨List.mem_append.mpr (Or.inl (hmem u hu').1), ?_⟩
        intro w hw hwt
        rcases List.mem_append.mp hw with hw' | hw'
        · exact (hmem u hu').2 w hw' hwt
        · exfalso
          rw [List.mem_singleton.mp hw'] at hwt
          exact hex ⟨u, hu', hwt.symm⟩
      · have huv : u = v := List.mem_singleton.mp hu'
        subst huv
        refine ⟨List.mem_append.mpr (Or.inr (List.mem_singleton.mpr rfl)), ?_⟩
        intro w hw hwt
        rcases List.mem_append.mp hw with hw' | hw'
        · exfalso
          obtain ⟨x, hx, hxt⟩ := hcov w hw'
          exact hex ⟨x, hx, hxt.trans hwt⟩
        · rw [List.mem_singleton.mp hw']
    · intro w hw
      rcases List.mem_append.mp hw with hw' | hw'
      · obtain ⟨u, hu, hut⟩ := hcov w hw'
        exact ⟨u, List.mem_append.mpr (Or.inl hu), hut⟩
      · exact ⟨v, List.mem_append.mpr (Or.inr (List.mem_singleton.mpr rfl)),
          by rw [List.mem_singleton.mp hw']⟩

theorem foldl_dedupInv (sz : Sizes) (l : List Video) :
    ∀ seen acc : List Video, DedupInv sz seen acc →
      DedupInv sz (seen ++ l) (l.foldl (dedupStep sz) acc) := by
  induction l with
  | nil =>
    intro seen acc h
    simpa using h
  | cons v l ih =>
    intro seen acc h
    have := ih (seen ++ [v]) (dedupStep sz acc v) (dedupStep_inv sz v h)
    simpa using this

theorem uniqueList_inv (sz : Sizes) (l : List Video) :
    DedupInv sz l (uniqueList sz l) := by
  have h0 : DedupInv sz [] [] := by
    refine ⟨by simp, ?_, ?_⟩
    · intro v hv
      exact absurd hv (List.not_mem_nil v)
    · intro w hw
      exact absurd hw (List.not_mem_nil w)
  have := foldl_dedupInv sz l [] [] h0
  simpa [uniqueList] using this

/-- C2: `unique_videos` keeps exactly one descriptor per distinct input
title, and the retained descriptor comes from the input and has the
largest file size (as read through `video_size`) among all input
descriptors sharing its title. -/
theorem unique_videos_max_size (sz : Sizes) (l : List Video) :
    (∀ v ∈ unique_videos sz l, v ∈ l ∧
       ∀ w ∈ l, w.title = v.title → video_size sz w ≤ video_size sz v) ∧
    (∀ t : String, (∃ w ∈ l, w.title = t) →
       ∃! v, v ∈ unique_videos sz l ∧ v.title = t) := by
  obtain ⟨hnd, hmem, hcov⟩ := uniqueList_inv sz l
  constructor
  · intro v hv
    rw [unique_videos, List.mem_toFinset] at hv
    exact hmem v hv
  · rintro t ⟨w, hw, hwt⟩
    obtain ⟨v, hv, hvt⟩ := hcov w hw
    refine ⟨v, ⟨List.mem_toFinset.mpr hv, hvt.trans hwt⟩, ?_⟩
    rintro u ⟨hu, hut⟩
    rw [unique_videos, List.mem_toFinset] at hu
    exact List.inj_on_of_nodup_map hnd hu hv (by rw [hut, hvt, hwt])

/-- Witness for C2: among two same-titled videos of sizes 10 and 20,
only the size-20 one is retained. -/
theorem unique_videos_max_size_witness :
    (⟨"A", none, "pb"⟩ : Video) ∈
        unique_videos (fun n => if n = "pb" then 20 else 10)
          [⟨"A", none, "pa"⟩, ⟨"A", none, "pb"⟩] ∧
      video_size (fun n => if n = "pb" then 20 else 10) ⟨"A", none, "pa"⟩ ≤
        video_size (fun n => if n = "pb" then 20 else 10) ⟨"A", none, "pb"⟩ := by
  have h := (unique_videos_max_size (fun n => if n = "pb" then 20 else 10)
    [⟨"A", none, "pa"⟩, ⟨"A", none, "pb"⟩]).1 ⟨"A", none, "pb"⟩ (by decide)
  exact ⟨by decide, h.2 ⟨"A", none, "pa"⟩ (by decide) rfl⟩

theorem uniqueList_titleInj (sz : Sizes) (l : List Video) :
    TitleInj (uniqueList sz l) := by
  obtain ⟨hnd, -, -⟩ := uniqueList_inv sz l
  intro v hv w hw ht
  exact List.inj_on_of_nodup_map hnd hv hw ht

theorem foldl_titleInj (sz : Sizes) (l : List Video) :
    ∀ acc : List Video,
      (∀ a, (a ∈ acc ∨ a ∈ l) → ∀ b, (b ∈ acc ∨ b ∈ l) →
        a.title = b.title → a = b) →
      (l.foldl (dedupStep sz) acc).toFinset = acc.toFinset ∪ l.toFinset := by
  induction l with
  | nil =>
    intro acc _
    simp
  | cons v l ih =>
    intro acc H
    rw [List.foldl_cons]
    by_cases hex : ∃ w ∈ acc, w.title = v.title
    · obtain ⟨w, hw, hwt⟩ := hex
      have hwv : w = v :=
        H w (Or.inl hw) v (Or.inr (List.mem_cons_self v l)) hwt
      subst hwv
      have hstep : dedupStep sz acc w = acc := by
        rw [dedupStep_pos sz w ⟨w, hw, hwt⟩]
        have : ∀ u ∈ acc,
            (if u.title == w.title then pyMax sz w u else u) = u := by
          intro u hu
          by_cases ht : u.title = w.title
          · have huw : u = w :=
              H u (Or.inl hu) w (Or.inr (List.mem_cons_self w l)) ht
            subst huw
            simp [pyMax, ite_self]
          · simp [ht]
        rw [List.map_congr_left this]
        simp
      rw [hstep]
      have hrest := ih acc fun a ha b hb =>
        H a (ha.imp id (fun h => List.mem_cons_of_mem w h))
          b (hb.imp id (fun h => List.mem_cons_of_mem w h))
      rw [hrest, List.toFinset_cons]
      ext x
      simp only [Finset.mem_union, Finset.mem_insert, List.mem_toFinset]
      constructor
      · rintro (hx | hx)
        · exact Or.inl hx
        · exact Or.inr (Or.inr hx)
      · rintro (hx | hx | hx)
        · exact Or.inl hx
        · exact Or.inl (hx ▸ hw)
        · exact Or.inr hx
    · rw [dedupStep_neg sz v hex]
      have hrest := ih (acc ++ [v]) ?_
      · rw [hrest, List.toFinset_append, List.toFinset_cons]
        ext x
        simp only [Finset.mem_union, Finset.mem_insert, List.mem_toFinset,
          List.toFinset_cons, List.mem_singleton, List.toFinset_nil,
          Finset.mem_singleton, Finset.not_mem_empty, or_false]
        tauto
      · intro a ha b hb
        have ha' : a ∈ acc ∨ a ∈ v :: l := by
          rcases ha with h | h
          · rcases List.mem_append.mp h with h | h
            · exact Or.inl h
            · exact Or.inr (List.mem_singleton.mp h ▸ List.mem_cons_self v l)
          · exact Or.inr (List.mem_cons_of_mem v h)
        have hb' : b ∈ acc ∨ b ∈ v :: l := by
          rcases hb with h | h
          · rcases List.mem_append.mp h with h | h
            · exact Or.inl h
            · exact Or.inr (List.mem_singleton.mp h ▸ List.mem_cons_self v l)
          · exact Or.inr (List.mem_cons_of_mem v h)
        exact H a ha' b hb'

theorem unique_videos_of_titleInj (sz : Sizes) (l : List Video)
    (h : TitleInj l) : unique_videos sz l = l.toFinset := by
  have := foldl_titleInj sz l [] ?_
  · simpa [unique_videos, uniqueList] using this
  · intro a ha b hb ht
    rcases ha with ha | ha
    · exact absurd ha (List.not_mem_nil a)
    · rcases hb with hb | hb
      · exact absurd hb (List.not_mem_nil b)
      · exact h a ha b hb ht

/-- C6: `unique_videos` is idempotent: run on any enumeration of its
own result (file sizes unchanged), it returns the same set again, and
that set holds exactly one descriptor per title. -/
theorem unique_videos_idempotent (sz : Sizes) (l l' : List Video)
    (h : l'.toFinset = unique_videos sz l) :
    unique_videos sz l' = unique_videos sz l ∧
      ∀ v ∈ unique_videos sz l, ∀ w ∈ unique_videos sz l,
        v.title = w.title → v = w := by
  have hinj : TitleInj (uniqueList sz l) := uniqueList_titleInj sz l
  have hmem : ∀ x : Video, x ∈ l' → x ∈ uniqueList sz l := by
    intro x hx
    have : x ∈ l'.toFinset := List.mem_toFinset.mpr hx
    rw [h] at this
    exact List.mem_toFinset.mp this
  constructor
  · rw [unique_videos_of_titleInj sz l'
      (fun v hv w hw ht => hinj v (hmem v hv) w (hmem w hw) ht), h]
  · intro v hv w hw ht
    exact hinj v (List.mem_toFinset.mp hv) w (List.mem_toFinset.mp hw) ht

/-- Witness for C6 at a concrete two-video input whose deduplicated
result is re-deduplicated. -/
theorem unique_videos_idempotent_witness :
    unique_videos (fun n => if n = "pb" then 20 else 10) [⟨"A", none, "pb"⟩] =
      unique_videos (fun n => if n = "pb" then 20 else 10)
        [⟨"A", none, "pa"⟩, ⟨"A", none, "pb"⟩] ∧
    ∀ v ∈ unique_videos (fun n => if n = "pb" then 20 else 10)
        [⟨"A", none, "pa"⟩, ⟨"A", none, "pb"⟩],
      ∀ w ∈ unique_videos (fun n => if n = "pb" then 20 else 10)
        [⟨"A", none, "pa"⟩, ⟨"A", none, "pb"⟩],
      v.title = w.title → v = w :=
  unique_videos_idempotent (fun n => if n = "pb" then 20 else 10)
    [⟨"A", none, "pa"⟩, ⟨"A", none, "pb"⟩] [⟨"A", none, "pb"⟩] (by decide)

/-- C1 counterexample: an empty `VideoSet` stored under the derived key
is present in the store, yet `get_videos` invokes the scanner (the
truthiness test `if videos:` fails on an empty set). -/
theorem get_videos_claim_counterexample :
    (fun k => if k = "/d" then some (∅ : VideoSet) else none)
        (videosKey ["/d"]) = some ∅ ∧
      (get_videos (fun _ => 0) (fun _ => [⟨"A", none, "p"⟩])
        (fun k => if k = "/d" then some (∅ : VideoSet) else none)
        ["/d"]).scannerInvoked = true := by
  constructor
  · decide
  · decide

/-- C1 (amended): a stored non-empty `VideoSet` under the derived key is
returned immediately, without invoking the scanner and leaving the store
unchanged; when the key is absent — or holds an empty set, which the
truthiness test treats as a miss — the scanner is invoked over all
directories, the deduplicated result is stored under the key, and it is
returned. -/
theorem get_videos_cache_spec (sz : Sizes) (scanner : String → List Video)
    (store : ScanStore) (dirs : List String) :
    (∀ vs : VideoSet, store (videosKey dirs) = some vs → vs ≠ ∅ →
       get_videos sz scanner store dirs = ⟨vs, store, false⟩) ∧
    ((store (videosKey dirs) = none ∨ store (videosKey dirs) = some ∅) →
       get_videos sz scanner store dirs =
         ⟨unique_videos sz ((dirs.map scanner).flatten),
           updateStore store (videosKey dirs)
             (unique_videos sz ((dirs.map scanner).flatten)), true⟩) := by
  constructor
  · intro vs hvs hne
    unfold get_videos
    rw [hvs]
    simp only [if_neg hne]
  · rintro (hmiss | hmiss)
    · unfold get_videos
      rw [hmiss]
    · unfold get_videos
      rw [hmiss]
      simp

/-- Witness for C1 (amended) at a concrete store holding a non-empty
set, and a concrete store where the key is absent. -/
theorem get_videos_cache_spec_witness :
    get_videos (fun _ => 0) (fun _ => [])
        (fun k => if k = "/d" then some ({⟨"A", none, "p"⟩} : VideoSet) else none)
        ["/d"] =
      ⟨{⟨"A", none, "p"⟩},
        (fun k => if k = "/d" then some ({⟨"A", none, "p"⟩} : VideoSet) else none),
        false⟩ ∧
    get_videos (fun _ => 0) (fun _ => []) (fun _ => none) ["/d"] =
      ⟨unique_videos (fun _ => 0) (((["/d"] : List String).map (fun _ => [])).flatten),
        updateStore (fun _ => none) (videosKey ["/d"])
          (unique_videos (fun _ => 0) (((["/d"] : List String).map (fun _ => [])).flatten)),
        true⟩ :=
  ⟨(get_videos_cache_spec (fun _ => 0) (fun _ => [])
      (fun k => if k = "/d" then some ({⟨"A", none, "p"⟩} : VideoSet) else none)
      ["/d"]).1 {⟨"A", none, "p"⟩} (by decide) (by decide),
    (get_videos_cache_spec (fun _ => 0) (fun _ => []) (fun _ => none)
      ["/d"]).2 (Or.inl rfl)⟩

theorem search_movie_fetch_eq_error
    {searchFn : String → Except Unit (List SearchItem)}
    (getMovieFn : String → Except Unit Meta) (store : MetaStore)
    {title : String} (hs : searchFn title = Except.error ()) :
    search_movie_fetch searchFn getMovieFn store title =
      ⟨none, store, true, false⟩ := by
  unfold search_movie_fetch
  rw [hs]

theorem search_movie_fetch_eq_nil
    {searchFn : String → Except Unit (List SearchItem)}
    (getMovieFn : String → Except Unit Meta) (store : MetaStore)
    {title : String} (hs : searchFn title = Except.ok []) :
    search_movie_fetch searchFn getMovieFn store title =
      ⟨none, store, true, false⟩ := by
  unfold search_movie_fetch
  rw [hs]

theorem search_movie_fetch_eq_fetchError
    {searchFn : String → Except Unit (List SearchItem)}
    {getMovieFn : String → Except Unit Meta} (store : MetaStore)
    {title : String} {item : SearchItem} {rest : List SearchItem}
    (hs : searchFn title = Except.ok (item :: rest))
    (hg : getMovieFn item.movieID = Except.error ()) :
    search_movie_fetch searchFn getMovieFn store title =
      ⟨none, store, true, true⟩ := by
  unfold search_movie_fetch
  rw [hs]
  simp only [hg]

theorem search_movie_fetch_eq_ok
    {searchFn : String → Except Unit (List SearchItem)}
    {getMovieFn : String → Except Unit Meta} (store : MetaStore)
    {title : String} {item : SearchItem} {rest : List SearchItem}
    {movie : Meta}
    (hs : searchFn title = Except.ok (item :: rest))
    (hg : getMovieFn item.movieID = Except.ok movie) :
    search_movie_fetch searchFn getMovieFn store title =
      ⟨some movie, save_cached_meta store title movie, true, true⟩ := by
  unfold search_movie_fetch
  rw [hs]
  simp only [hg]

theorem search_movie_eq_hit
    (searchFn : String → Except Unit (List SearchItem))
    (getMovieFn : String → Except Unit Meta) {store : MetaStore}
    {title : String} {m : Meta}
    (hc : store title = some m) (hb : m.toBool = true) :
    search_movie searchFn getMovieFn store title =
      ⟨some m, store, false, false⟩ := by
  unfold search_movie get_cached_meta
  rw [hc]
  simp only [hb, if_true]

theorem search_movie_eq_miss
    (searchFn : String → Except Unit (List SearchItem))
    (getMovieFn : String → Except Unit Meta) {store : MetaStore}
    {title : String}
    (hmiss : store title = none ∨
      ∃ m, store title = some m ∧ m.toBool = false) :
    search_movie searchFn getMovieFn store title =
      search_movie_fetch searchFn getMovieFn store title := by
  unfold search_movie get_cached_meta
  rcases hmiss with h | ⟨m, hm, hb⟩
  · rw [h]
  · rw [hm]
    simp only [hb, Bool.false_eq_true, if_false]

theorem search_movie_fetch_stores
    (searchFn : String → Except Unit (List SearchItem))
    (getMovieFn : String → Except Unit Meta) (store : MetaStore)
    (title : String) (r : Meta)
    (h : (search_movie_fetch searchFn getMovieFn store title).result = some r) :
    (search_movie_fetch searchFn getMovieFn store title).store title = some r := by
  cases hs : searchFn title with
  | error e =>
    cases e
    rw [search_movie_fetch_eq_error getMovieFn store hs] at h
    simp at h
  | ok lst =>
    cases lst with
    | nil =>
      rw [search_movie_fetch_eq_nil getMovieFn store hs] at h
      simp at h
    | cons item rest =>
      cases hg : getMovieFn item.movieID with
      | error e =>
        cases e
        rw [search_movie_fetch_eq_fetchError store hs hg] at h
        simp at h
      | ok movie =>
        rw [search_movie_fetch_eq_ok store hs hg] at h ⊢
        have hmr : movie = r := by simpa using h
        subst hmr
        simp [save_cached_meta, updateStore]

theorem search_movie_result_stored
    (searchFn : String → Except Unit (List SearchItem))
    (getMovieFn : String → Except Unit Meta) (store : MetaStore)
    (title : String) (r : Meta)
    (h : (search_movie searchFn getMovieFn store title).result = some r) :
    (search_movie searchFn getMovieFn store title).store title = some r := by
  cases hc : store title with
  | none =>
    rw [search_movie_eq_miss searchFn getMovieFn (Or.inl hc)] at h ⊢
    exact search_movie_fetch_stores searchFn getMovieFn store title r h
  | some m =>
    by_cases hb : m.toBool
    · rw [search_movie_eq_hit searchFn getMovieFn hc hb] at h ⊢
      have hmr : m = r := by simpa using h
      subst hmr
      exact hc
    · rw [search_movie_eq_miss searchFn getMovieFn
        (Or.inr ⟨m, hc, by simpa using hb⟩)] at h ⊢
      exact search_movie_fetch_stores searchFn getMovieFn store title r h

/-- C3 (amended): once a `search_movie` call returns (and hence caches)
a truthy record for a title query, every subsequent call with the same
query returns the cached record immediately, invoking neither the remote
search nor the detail fetch and leaving the store unchanged. -/
theorem search_movie_cache_hit (searchFn : String → Except Unit (List SearchItem))
    (getMovieFn : String → Except Unit Meta) (store : MetaStore)
    (title : String) (r : Meta)
    (h₁ : (search_movie searchFn getMovieFn store title).result = some r)
    (h₂ : r.toBool = true) :
    search_movie searchFn getMovieFn
        (search_movie searchFn getMovieFn store title).store title =
      ⟨some r, (search_movie searchFn getMovieFn store title).store,
        false, false⟩ := by
  have hst := search_movie_result_stored searchFn getMovieFn store title r h₁
  exact search_movie_eq_hit searchFn getMovieFn hst h₂

/-- Witness for C3 (amended): a concrete fetch succeeds with a truthy
record; the follow-up call is served from the cache. -/
theorem search_movie_cache_hit_witness :
    search_movie (fun _ => Except.ok [⟨"i1"⟩])
        (fun _ => Except.ok ⟨"i1", some "T", none, none, none, none, none, none, none⟩)
        ((search_movie (fun _ => Except.ok [⟨"i1"⟩])
          (fun _ => Except.ok ⟨"i1", some "T", none, none, none, none, none, none, none⟩)
          (fun _ => none) "T").store) "T" =
      ⟨some ⟨"i1", some "T", none, none, none, none, none, none, none⟩,
        (search_movie (fun _ => Except.ok [⟨"i1"⟩])
          (fun _ => Except.ok ⟨"i1", some "T", none, none, none, none, none, none, none⟩)
          (fun _ => none) "T").store, false, false⟩ :=
  search_movie_cache_hit (fun _ => Except.ok [⟨"i1"⟩])
    (fun _ => Except.ok ⟨"i1", some "T", none, none, none, none, none, none, none⟩)
    (fun _ => none) "T" ⟨"i1", some "T", none, none, none, none, none, none, none⟩
    (by decide) (by decide)

/-- C3 counterexample: a successful lookup may cache a falsy (empty-data)
record; it is stored under the query, yet the next call with the same
query invokes the remote search again, because `if meta:` fails on the
falsy record. -/
theorem search_movie_claim_counterexample :
    (search_movie (fun _ => Except.ok [⟨"i1"⟩])
        (fun _ => Except.ok ⟨"i1", none, none, none, none, none, none, none, none⟩)
        (fun _ => none) "T").result =
      some ⟨"i1", none, none, none, none, none, none, none, none⟩ ∧
    (search_movie (fun _ => Except.ok [⟨"i1"⟩])
        (fun _ => Except.ok ⟨"i1", none, none, none, none, none, none, none, none⟩)
        (fun _ => none) "T").store "T" =
      some ⟨"i1", none, none, none, none, none, none, none, none⟩ ∧
    (search_movie (fun _ => Except.ok [⟨"i1"⟩])
        (fun _ => Except.ok ⟨"i1", none, none, none, none, none, none, none, none⟩)
        ((search_movie (fun _ => Except.ok [⟨"i1"⟩])
          (fun _ => Except.ok ⟨"i1", none, none, none, none, none, none, none, none⟩)
          (fun _ => none) "T").store) "T").searchInvoked = true := by
  refine ⟨by decide, by decide, by decide⟩

/-- C4: when the remote search raises, returns no results, or the detail
fetch raises, `search_movie` returns `None`, writes nothing to the
metadata cache, and — the store being unchanged — a subsequent call with
the same title invokes the remote search again. -/
theorem search_movie_failure_not_cached
    (searchFn : String → Except Unit (List SearchItem))
    (getMovieFn : String → Except Unit Meta) (store : MetaStore)
    (title : String)
    (hmiss : store title = none ∨
      ∃ m, store title = some m ∧ m.toBool = false)
    (hfail : searchFn title = Except.error () ∨
      searchFn title = Except.ok [] ∨
      ∃ item rest, searchFn title = Except.ok (item :: rest) ∧
        getMovieFn item.movieID = Except.error ()) :
    (search_movie searchFn getMovieFn store title).result = none ∧
    (search_movie searchFn getMovieFn store title).store = store ∧
    (search_movie searchFn getMovieFn store title).searchInvoked = true ∧
    (search_movie searchFn getMovieFn
      (search_movie searchFn getMovieFn store title).store title).searchInvoked
        = true := by
  have hred : search_movie searchFn getMovieFn store title =
      search_movie_fetch searchFn getMovieFn store title :=
    search_movie_eq_miss searchFn getMovieFn hmiss
  have hfetch : ∃ b, search_movie_fetch searchFn getMovieFn store title =
      ⟨none, store, true, b⟩ := by
    rcases hfail with h | h | ⟨item, rest, hs, hg⟩
    · exact ⟨false, search_movie_fetch_eq_error getMovieFn store h⟩
    · exact ⟨false, search_movie_fetch_eq_nil getMovieFn store h⟩
    · exact ⟨true, search_movie_fetch_eq_fetchError store hs hg⟩
  obtain ⟨b, hfetch⟩ := hfetch
  rw [hred, hfetch]
  refine ⟨rfl, rfl, rfl, ?_⟩
  rw [show (⟨none, store, true, b⟩ : LookupResult).store = store from rfl,
    search_movie_eq_miss searchFn getMovieFn hmiss]
  rcases hfail with h | h | ⟨item, rest, hs, hg⟩
  · rw [search_movie_fetch_eq_error getMovieFn store h]
  · rw [search_movie_fetch_eq_nil getMovieFn store h]
  · rw [search_movie_fetch_eq_fetchError store hs hg]

/-- Witness for C4: a concrete raising search on an empty cache. -/
theorem search_movie_failure_not_cached_witness :
    (search_movie (fun _ => Except.error ()) (fun _ => Except.error ())
        (fun _ => none) "T").result = none ∧
    (search_movie (fun _ => Except.error ()) (fun _ => Except.error ())
        (fun _ => none) "T").store = (fun _ => none) ∧
    (search_movie (fun _ => Except.error ()) (fun _ => Except.error ())
        (fun _ => none) "T").searchInvoked = true ∧
    (search_movie (fun _ => Except.error ()) (fun _ => Except.error ())
      ((search_movie (fun _ => Except.error ()) (fun _ => Except.error ())
        (fun _ => none) "T").store) "T").searchInvoked = true :=
  search_movie_failure_not_cached (fun _ => Except.error ())
    (fun _ => Except.error ()) (fun _ => none) "T" (Or.inl rfl) (Or.inl rfl)

/-- C7: the metadata report order is a permutation of the entries,
sorted by numeric rating in descending order (each entry's sort key is
at least the next one's), and an entry whose record has no rating takes
sort key 0. -/
theorem sortMetadata_sorted_desc (entries : List (Video × Meta)) :
    List.Perm (sortMetadata entries) entries ∧
    (sortMetadata entries).Sorted (fun a b => ratingKey b ≤ ratingKey a) ∧
    ∀ (v : Video) (m : Meta), m.rating = none → ratingKey (v, m) = 0 := by
  refine ⟨List.perm_insertionSort _ _, ?_, ?_⟩
  · haveI : IsTotal (Video × Meta) metaSortRel := ⟨fun a b => le_total _ _⟩
    haveI : IsTrans (Video × Meta) metaSortRel :=
      ⟨fun _ _ _ hab hbc => le_trans hbc hab⟩
    exact List.sorted_insertionSort metaSortRel entries
  · intro v m h
    simp [ratingKey, h]

/-- Witness for C7: the key of a ratingless record evaluates to 0, and
the sort of a concrete two-entry list is a permutation of it. -/
theorem sortMetadata_sorted_desc_witness :
    ratingKey (⟨"A", none, "p"⟩,
        ⟨"i", none, none, none, none, none, none, none, none⟩) = 0 ∧
      List.Perm (sortMetadata []) [] :=
  ⟨(sortMetadata_sorted_desc []).2.2 ⟨"A", none, "p"⟩
      ⟨"i", none, none, none, none, none, none, none, none⟩ rfl,
    (sortMetadata_sorted_desc []).1⟩

/-- C8 counterexample: a record whose plot outline is present but empty
(falsy) renders the plot fallback, not the present outline value. -/
theorem summary_claim_counterexample :
    (⟨"i", some "T", none, none, none, none, some "", some "XYZ", none⟩ :
        Meta).plotOutline = some "" ∧
    (mkEntry ⟨"T", none, "p"⟩
        ⟨"i", some "T", none, none, none, none, some "", some "XYZ", none⟩).map
        Entry.summary = some "XYZ" ∧
    ("XYZ" : String) ≠ "" := by
  refine ⟨rfl, by decide, by decide⟩

/-- C8 (amended): the rendered summary equals the plot-outline value
when one is present and non-empty (truthy); otherwise — outline absent
or empty — it equals the first 300 characters of the plot field, the
empty string when the plot is absent too. -/
theorem mkEntry_summary (video : Video) (m : Meta) (e : Entry)
    (h : mkEntry video m = some e) :
    (∀ s, m.plotOutline = some s → s ≠ "" → e.summary = s) ∧
    ((m.plotOutline = none ∨ m.plotOutline = some "") →
      e.summary = strTake (m.plot.getD "") 300) ∧
    ((m.plotOutline = none ∨ m.plotOutline = some "") → m.plot = none →
      e.summary = "") := by
  have hs : e.summary = pySummary m := by
    unfold mkEntry at h
    cases ht : m.title with
    | none =>
      rw [ht] at h
      simp at h
    | some t =>
      rw [ht] at h
      simp only [Option.some.injEq] at h
      rw [← h]
  refine ⟨?_, ?_, ?_⟩
  · intro s hso hne
    rw [hs]
    unfold pySummary pyOrString
    rw [hso]
    simp [hne]
  · rintro (ho | ho)
    · rw [hs]
      unfold pySummary pyOrString
      rw [ho]
    · rw [hs]
      unfold pySummary pyOrString
      rw [ho]
      simp
  · rintro (ho | ho) hp
    · rw [hs]
      unfold pySummary pyOrString
      rw [ho, hp]
      rfl
    · rw [hs]
      unfold pySummary pyOrString
      rw [ho, hp]
      simp [strTake]

/-- Witness for C8 (amended): a concrete record with a non-empty
outline renders that outline. -/
theorem mkEntry_summary_witness :
    (mkEntry ⟨"T", none, "p"⟩
        ⟨"i", some "T", none, none, none, none, some "OUT", some "PLOT",
          none⟩).map Entry.summary = some "OUT" := by
  cases he : mkEntry ⟨"T", none, "p"⟩
      ⟨"i", some "T", none, none, none, none, some "OUT", some "PLOT", none⟩ with
  | none => exact absurd he (by decide)
  | some e =>
    have := (mkEntry_summary ⟨"T", none, "p"⟩
      ⟨"i", some "T", none, none, none, none, some "OUT", some "PLOT", none⟩
      e he).1 "OUT" rfl (by decide)
    rw [Option.map_some', this]

/-- C9 counterexample: a record with no year does not render an
empty/zero default: the presenter falls back to the video's scanned
year (1999 here). -/
theorem presenter_year_counterexample :
    (⟨"i", some "T", none, none, none, none, none, none, none⟩ :
        Meta).year = none ∧
    (mkEntry ⟨"T", some 1999, "p"⟩
        ⟨"i", some "T", none, none, none, none, none, none, none⟩).map
        Entry.year = some (some 1999) := by
  exact ⟨rfl, by decide⟩

/-- C9 (amended): for a record with a title, the presenter never fails
on absent optional fields: missing countries, directors, rating and plot
render as empty defaults, while a missing year falls back to the video's
scanned year (truthiness-filtered) and renders empty only when that is
also absent. -/
theorem mkEntry_defaults (video : Video) (m : Meta) (t : String)
    (h : m.title = some t) :
    (mkEntry video m).isSome = true ∧
    (m.countries = none → (mkEntry video m).map Entry.country = some "") ∧
    (m.directors = none → (mkEntry video m).map Entry.directors = some "") ∧
    (m.rating = none → (mkEntry video m).map Entry.rating = some none) ∧
    (m.plotOutline = none → m.plot = none →
      (mkEntry video m).map Entry.summary = some "") ∧
    (m.year = none →
      (mkEntry video m).map Entry.year = some (truthyNat video.year)) := by
  unfold mkEntry
  rw [h]
  refine ⟨rfl, ?_, ?_, ?_, ?_, ?_⟩
  · intro hc
    rw [hc]
    rfl
  · intro hd
    rw [hd]
    rfl
  · intro hr
    rw [hr]
    rfl
  · intro h₁ h₂
    simp only [Option.map_some']
    unfold pySummary pyOrString
    rw [h₁, h₂]
    rfl
  · intro hy
    simp only [Option.map_some']
    unfold entryYear truthyNat
    rw [hy]

/-- Witness for C9 (amended): the projection succeeds and substitutes
defaults at a concrete record having only a title. -/
theorem mkEntry_defaults_witness :
    (mkEntry ⟨"T", none, "p"⟩
        ⟨"i", some "T", none, none, none, none, none, none, none⟩).isSome
        = true ∧
    (mkEntry ⟨"T", none, "p"⟩
        ⟨"i", some "T", none, none, none, none, none, none, none⟩).map
        Entry.country = some "" :=
  ⟨(mkEntry_defaults ⟨"T", none, "p"⟩
      ⟨"i", some "T", none, none, none, none, none, none, none⟩ "T" rfl).1,
    (mkEntry_defaults ⟨"T", none, "p"⟩
      ⟨"i", some "T", none, none, none, none, none, none, none⟩ "T" rfl).2.1 rfl⟩

end Movies
